import Mathlib

/-!
Shallow embedding of the holdings-extraction and reconciliation core of the
portfolio_aggregator repository (src/backend).  Numbers scraped from broker
pages are embedded as rationals (ℚ); Python's `ZeroDivisionError`, `raise`
and `ValueError` are made explicit as outcome constructors.  Each definition
mirrors one Python function, named after it.
-/

namespace PortfolioAggregator

/-- Result of a text-normalizer call: Python returns a float or raises
`ValueError` (a parse error). -/
inductive ParseResult where
  | ok (v : ℚ)
  | error (msg : String)
deriving DecidableEq, Repr

/-- `ParseResult.isErr r` holds exactly when the normalizer raised. -/
def ParseResult.isErr : ParseResult → Bool
  | .ok _ => false
  | .error _ => true

/-- ASCII whitespace characters removed by Python's `str.strip()`. -/
def isPyWhitespace (c : Char) : Bool :=
  c = ' ' || c = '\t' || c = '\n' || c = '\r' || c = '\x0b' || c = '\x0c'

/-- Python `str.strip()` on a character list: drop leading and trailing
whitespace. -/
def pstrip (l : List Char) : List Char :=
  ((l.dropWhile isPyWhitespace).reverse.dropWhile isPyWhitespace).reverse

/-- Python `'c' in s` for a single character. -/
def containsChar (c : Char) (l : List Char) : Bool :=
  l.any (· = c)

/-- Python `s.replace('(', '').replace(')', '')`. -/
def removeParens (l : List Char) : List Char :=
  l.filter (fun c => ¬ (c = '(' || c = ')'))

/-- Python `re.sub(r'[$,]', '', s)`: drop dollar signs and commas
(Chase/Merrill decimal cleaning). -/
def removeDollarComma (l : List Char) : List Char :=
  l.filter (fun c => ¬ (c = '$' || c = ','))

/-- Python `re.sub(r'[,\$,%+]', '', s)`: drop commas, dollar signs, percent
signs and pluses (E*Trade decimal cleaning). -/
def removeMoneyPctPlus (l : List Char) : List Char :=
  l.filter (fun c => ¬ (c = ',' || c = '$' || c = '%' || c = '+'))

/-- Python `re.sub(r'[%+]', '', s)`: drop percent signs and pluses
(percentage cleaning). -/
def removePctPlus (l : List Char) : List Char :=
  l.filter (fun c => ¬ (c = '%' || c = '+'))

/-- Python `s.replace('Loss of', '')`: delete every occurrence of the literal
substring `Loss of`, scanning left to right. -/
def removeLossOf : List Char → List Char
  | 'L' :: 'o' :: 's' :: 's' :: ' ' :: 'o' :: 'f' :: rest => removeLossOf rest
  | c :: rest => c :: removeLossOf rest
  | [] => []

/-- Python `s.replace('Gain of', '')`. -/
def removeGainOf : List Char → List Char
  | 'G' :: 'a' :: 'i' :: 'n' :: ' ' :: 'o' :: 'f' :: rest => removeGainOf rest
  | c :: rest => c :: removeGainOf rest
  | [] => []

/-- Python `'Loss of' in s`. -/
def hasLossOf : List Char → Bool
  | 'L' :: 'o' :: 's' :: 's' :: ' ' :: 'o' :: 'f' :: _ => true
  | _ :: rest => hasLossOf rest
  | [] => false

/-- Python `'Gain of' in s`. -/
def hasGainOf : List Char → Bool
  | 'G' :: 'a' :: 'i' :: 'n' :: ' ' :: 'o' :: 'f' :: _ => true
  | _ :: rest => hasGainOf rest
  | [] => false

/-- Longest prefix of decimal digits together with the remaining suffix
(the greedy `\d+` / `\d*` of the regex). -/
def takeDigits : List Char → List Char × List Char
  | [] => ([], [])
  | c :: rest =>
    if c.isDigit then
      let (ds, r) := takeDigits rest
      (c :: ds, r)
    else ([], c :: rest)

/-- Value of a digit string as a natural number. -/
def digitsToNat (l : List Char) : Nat :=
  l.foldl (fun a c => 10 * a + (c.toNat - 48)) 0

/-- Regex match of `\d+\.?\d*` starting at the head of the list (which is
known to be a digit): integer digits, then an optional dot with fractional
digits. -/
def matchBody (l : List Char) : List Char × List Char :=
  let (ds, r) := takeDigits l
  match r with
  | '.' :: r2 => (ds, (takeDigits r2).1)
  | _ => (ds, [])

/-- Try the regex `-?\d+\.?\d*` anchored at the current position: Python's
`re` engine accepts a leading `-` only when digits follow. Returns the sign
and the (integer digits, fraction digits) of the match. -/
def matchNumberAt : List Char → Option (Bool × List Char × List Char)
  | '-' :: c :: rest =>
    if c.isDigit then some (true, matchBody (c :: rest)) else none
  | c :: rest =>
    if c.isDigit then some (false, matchBody (c :: rest)) else none
  | [] => none

/-- Python `re.search(r'-?\d+\.?\d*', s)`: the leftmost match of an
optionally-signed decimal number. -/
def searchNumber : List Char → Option (Bool × List Char × List Char)
  | [] => none
  | c :: rest =>
    match matchNumberAt (c :: rest) with
    | some m => some m
    | none => searchNumber rest

/-- Value of a matched number: sign, integer digits, fraction digits, read
as Python's `float()` does (decimal semantics, embedded exactly in ℚ). -/
def numberValue (neg : Bool) (ds fs : List Char) : ℚ :=
  let mag : ℚ := (digitsToNat ds : ℚ) + (digitsToNat fs : ℚ) / (10 : ℚ) ^ fs.length
  if neg then -mag else mag

/-- `ChaseCrawler._clean_decimal_text` (chase_crawler.py:474-502): strip,
remember parenthesized negatives, drop `$`/`,`, take the first
`-?\d+\.?\d*` match, negate if parenthesized; `ValueError` on empty input or
when no number is found. -/
def chase_clean_decimal_text (s : String) : ParseResult :=
  if s = "" then .error "Value string cannot be empty"
  else
    let l := pstrip s.data
    let isNeg := containsChar '(' l && containsChar ')' l
    let l := if isNeg then removeParens l else l
    let cleaned := removeDollarComma l
    match searchNumber cleaned with
    | some (mneg, ds, fs) =>
      let v := numberValue mneg ds fs
      .ok (if isNeg then -v else v)
    | none => .error "No valid number found in text"

/-- `EtradeCrawler._clean_decimal_text` (etrade_crawler.py:371-384): same as
Chase but the character class removed is `[,\$,%+]`. -/
def etrade_clean_decimal_text (s : String) : ParseResult :=
  if s = "" then .error "Value string cannot be empty"
  else
    let l := pstrip s.data
    let isNeg := containsChar '(' l && containsChar ')' l
    let l := if isNeg then removeParens l else l
    let cleaned := removeMoneyPctPlus l
    match searchNumber cleaned with
    | some (mneg, ds, fs) =>
      let v := numberValue mneg ds fs
      .ok (if isNeg then -v else v)
    | none => .error "No valid number found in text"

/-- `ChaseCrawler._clean_percentage_text` (chase_crawler.py:575-607):
parenthesized negatives first, else the `Loss of` / `Gain of` substring
branches; drop `%`/`+`, take the first number, divide by 100, negate per the
remembered flag. -/
def chase_clean_percentage_text (s : String) : ParseResult :=
  if s = "" then .error "Percentage string cannot be empty"
  else
    let l := pstrip s.data
    let parens := containsChar '(' l && containsChar ')' l
    let isNeg := parens || (!parens && hasLossOf l)
    let l :=
      if parens then removeParens l
      else if hasLossOf l then pstrip (removeLossOf l)
      else if hasGainOf l then pstrip (removeGainOf l)
      else l
    let cleaned := removePctPlus l
    match searchNumber cleaned with
    | some (mneg, ds, fs) =>
      let v := numberValue mneg ds fs / 100
      .ok (if isNeg then -v else v)
    | none => .error "No valid percentage found in text"

/-- `MerrillCrawler._clean_percentage_text` (merrill_crawler.py:433-465):
textually identical to the Chase variant. -/
def merrill_clean_percentage_text (s : String) : ParseResult :=
  if s = "" then .error "Percentage string cannot be empty"
  else
    let l := pstrip s.data
    let parens := containsChar '(' l && containsChar ')' l
    let isNeg := parens || (!parens && hasLossOf l)
    let l :=
      if parens then removeParens l
      else if hasLossOf l then pstrip (removeLossOf l)
      else if hasGainOf l then pstrip (removeGainOf l)
      else l
    let cleaned := removePctPlus l
    match searchNumber cleaned with
    | some (mneg, ds, fs) =>
      let v := numberValue mneg ds fs / 100
      .ok (if isNeg then -v else v)
    | none => .error "No valid percentage found in text"

/-- `EtradeCrawler._clean_percentage_text` (etrade_crawler.py:386-399): only
the parenthesis rule — no `Loss of` / `Gain of` handling. -/
def etrade_clean_percentage_text (s : String) : ParseResult :=
  if s = "" then .error "Percentage string cannot be empty"
  else
    let l := pstrip s.data
    let isNeg := containsChar '(' l && containsChar ')' l
    let l := if isNeg then removeParens l else l
    let cleaned := removePctPlus l
    match searchNumber cleaned with
    | some (mneg, ds, fs) =>
      let v := numberValue mneg ds fs / 100
      .ok (if isNeg then -v else v)
    | none => .error "No valid percentage found in text"

/-! ## Data model (src/backend/models/portfolio.py) -/

/-- `Holding` (portfolio.py:9-23): one security or cash position.  The
pydantic `brokers` dict is embedded as an insertion-ordered association
list. -/
structure Holding where
  symbol : String
  description : String
  quantity : ℚ
  price : ℚ
  unit_cost : ℚ
  cost_basis : ℚ
  current_value : ℚ
  day_change_percent : ℚ
  day_change_dollars : ℚ
  unrealized_gain_loss : ℚ
  unrealized_gain_loss_percent : ℚ
  portfolio_percentage : Option ℚ := none
  brokers : List (String × ℚ) := []
deriving DecidableEq, Repr

/-- `CrawlerResult` (portfolio.py:47-54): outcome of one broker's scrape. -/
structure CrawlerResult where
  broker : String
  success : Bool
  holdings : List Holding := []
  error_message : Option String := none
  requires_2fa : Bool := false
  session_valid : Bool := true
deriving DecidableEq, Repr

/-- `Portfolio` (portfolio.py:26-34): the aggregated snapshot.  The
`last_updated` timestamp is out of the numeric core and omitted. -/
structure Portfolio where
  holdings : List Holding
  total_value : ℚ
  total_cost_basis : ℚ
  total_unrealized_gain_loss : ℚ
  total_unrealized_gain_loss_percent : ℚ
  brokers_updated : List String
deriving DecidableEq, Repr

/-- Python `sum(f(h) for h in holdings)` (and `_float_sum`,
fetch_all_positions.py:32-33). -/
def sumBy (f : Holding → ℚ) (holdings : List Holding) : ℚ :=
  (holdings.map f).sum

/-! ## Intra-broker and cross-broker symbol-group combination -/

/-- Outcome of a call that may raise: either a value or the exception's
description. -/
inductive PyResult (α : Type) where
  | ok (v : α)
  | exn (msg : String)
deriving DecidableEq, Repr

/-- `_merge_broker_maps` (fetch_all_positions.py:36-42): fold every
holding's broker map into one dict, summing values per broker name. -/
def mergeIntoBrokerMap (acc : List (String × ℚ)) (entry : String × ℚ) :
    List (String × ℚ) :=
  match acc with
  | [] => [entry]
  | (b, v) :: rest =>
    if b = entry.1 then (b, v + entry.2) :: rest
    else (b, v) :: mergeIntoBrokerMap rest entry

/-- `_merge_broker_maps` over a holding list. -/
def merge_broker_maps (holdings : List Holding) : List (String × ℚ) :=
  holdings.foldl (fun acc h => h.brokers.foldl mergeIntoBrokerMap acc) []

/-- `_combine_symbol_group` (fetch_all_positions.py:45-88), the cross-broker
variant: sums the five additive fields, derives weighted price/unit cost and
the two ratio percentages with explicit zero-denominator guards, always sets
`portfolio_percentage := None`.  Raises `ValueError` on an empty group. -/
def fetch_combine_symbol_group (symbol : String) (holdings : List Holding) :
    PyResult Holding :=
  match holdings with
  | [] => .exn ("ValueError: No holdings provided for symbol " ++ symbol)
  | base :: _ =>
    let total_quantity := sumBy Holding.quantity holdings
    let total_cost_basis := sumBy Holding.cost_basis holdings
    let total_current_value := sumBy Holding.current_value holdings
    let total_day_change_dollars := sumBy Holding.day_change_dollars holdings
    let total_unrealized_gain_loss := sumBy Holding.unrealized_gain_loss holdings
    let weighted_price := if total_quantity ≠ 0 then total_current_value / total_quantity else 0
    let weighted_unit_cost := if total_quantity ≠ 0 then total_cost_basis / total_quantity else 0
    let prior_value := total_current_value - total_day_change_dollars
    let day_change_percent := if prior_value ≠ 0 then total_day_change_dollars / prior_value else 0
    let unrealized_gain_loss_percent :=
      if total_cost_basis ≠ 0 then total_unrealized_gain_loss / total_cost_basis else 0
    .ok {
      symbol := symbol
      description := base.description
      quantity := total_quantity
      price := weighted_price
      unit_cost := weighted_unit_cost
      cost_basis := total_cost_basis
      current_value := total_current_value
      day_change_percent := day_change_percent
      day_change_dollars := total_day_change_dollars
      unrealized_gain_loss := total_unrealized_gain_loss
      unrealized_gain_loss_percent := unrealized_gain_loss_percent
      portfolio_percentage := none
      brokers := merge_broker_maps holdings }

/-- `MerrillCrawler._combine_symbol_group` (merrill_crawler.py:483-539), the
intra-broker variant.  Its day-change guard tests `total_current_value != 0`
but divides by `total_current_value - total_day_change_dollars`, so Python
raises `ZeroDivisionError` when the current value is nonzero yet equals the
day change; `portfolio_percentage` is the sum over the members that have
one, whenever at least one member has one. -/
def merrill_combine_symbol_group (brokerName symbol : String)
    (holdings : List Holding) : PyResult Holding :=
  match holdings with
  | [] => .exn ("ValueError: No holdings provided for symbol " ++ symbol)
  | base :: _ =>
    let total_quantity := sumBy Holding.quantity holdings
    let total_cost_basis := sumBy Holding.cost_basis holdings
    let total_current_value := sumBy Holding.current_value holdings
    let total_day_change_dollars := sumBy Holding.day_change_dollars holdings
    let total_unrealized_gain_loss := sumBy Holding.unrealized_gain_loss holdings
    let weighted_price := if total_quantity ≠ 0 then total_current_value / total_quantity else 0
    let weighted_unit_cost := if total_quantity ≠ 0 then total_cost_basis / total_quantity else 0
    if total_current_value ≠ 0 ∧ total_current_value - total_day_change_dollars = 0 then
      .exn "ZeroDivisionError"
    else
      let day_change_percent :=
        if total_current_value ≠ 0 then
          total_day_change_dollars / (total_current_value - total_day_change_dollars)
        else 0
      let unrealized_gain_loss_percent :=
        if total_cost_basis ≠ 0 then total_unrealized_gain_loss / total_cost_basis else 0
      let present := holdings.filterMap Holding.portfolio_percentage
      let portfolio_percentage : Option ℚ :=
        match present with
        | [] => none
        | _ => some present.sum
      .ok {
        symbol := symbol
        description := base.description
        quantity := total_quantity
        price := weighted_price
        unit_cost := weighted_unit_cost
        cost_basis := total_cost_basis
        current_value := total_current_value
        day_change_percent := day_change_percent
        day_change_dollars := total_day_change_dollars
        unrealized_gain_loss := total_unrealized_gain_loss
        unrealized_gain_loss_percent := unrealized_gain_loss_percent
        portfolio_percentage := portfolio_percentage
        brokers := [(brokerName, total_current_value)] }

/-! ## Sanity checks (reconciliation against the page's totals row)

The totals row is passed in already parsed (the HTML scraping that produces
it is outside the numeric core); the holdings side is summed from the parsed
holdings exactly as the Python code does. -/

/-- Tolerance used by all three brokers. -/
def TOTAL_CHECK_TOLERANCE : ℚ := 1 / 100

/-- Outcome of `ChaseCrawler.sanity_check`. -/
inductive ChaseSanityOutcome where
  | pass
  | raiseValueMismatch
  | raiseUnrealizedMismatch
  | zeroDivisionError
deriving DecidableEq, Repr

/-- `ChaseCrawler.sanity_check` (chase_crawler.py:519-547): both relative
errors are divided by the *signed computed* sum (not the reported figure);
a zero computed sum makes Python's division raise `ZeroDivisionError`. -/
def chase_sanity_check (reported_total_value reported_unrealized_gain : ℚ)
    (holdings : List Holding) : ChaseSanityOutcome :=
  let computed_total_value := sumBy Holding.current_value holdings
  let computed_unrealized_gain := sumBy Holding.unrealized_gain_loss holdings
  if computed_total_value = 0 then .zeroDivisionError
  else if |computed_total_value - reported_total_value| / computed_total_value >
      TOTAL_CHECK_TOLERANCE then .raiseValueMismatch
  else if computed_unrealized_gain = 0 then .zeroDivisionError
  else if |computed_unrealized_gain - reported_unrealized_gain| / computed_unrealized_gain >
      TOTAL_CHECK_TOLERANCE then .raiseUnrealizedMismatch
  else .pass

/-- Outcome of `MerrillCrawler.sanity_check`. -/
inductive MerrillSanityOutcome where
  | retTrue
  | retFalse
  | raiseTotalsRowMissing
  | zeroDivisionError
deriving DecidableEq, Repr

/-- `MerrillCrawler.sanity_check` (merrill_crawler.py:305-336): raises only
when the totals row is missing; on a metric mismatch it logs and *returns
False* (its caller at merrill_crawler.py:178 ignores the return value).
Both relative errors are divided by the *signed reported* figure, so a zero
reported figure raises `ZeroDivisionError`. -/
def merrill_sanity_check (total_row : Option (ℚ × ℚ))
    (table_holdings : List Holding) : MerrillSanityOutcome :=
  match total_row with
  | none => .raiseTotalsRowMissing
  | some (reported_total_value, reported_unrealized_gain) =>
    let computed_total_value := sumBy Holding.current_value table_holdings
    let computed_unrealized_gain := sumBy Holding.unrealized_gain_loss table_holdings
    if reported_total_value = 0 then .zeroDivisionError
    else if |computed_total_value - reported_total_value| / reported_total_value >
        TOTAL_CHECK_TOLERANCE then .retFalse
    else if reported_unrealized_gain = 0 then .zeroDivisionError
    else if |computed_unrealized_gain - reported_unrealized_gain| / reported_unrealized_gain >
        TOTAL_CHECK_TOLERANCE then .retFalse
    else .retTrue

/-- Outcome of `EtradeCrawler.sanity_check`. -/
inductive EtradeSanityOutcome where
  | pass
  | warnPass
  | raiseValueMismatch
  | raiseTotalsRowMissing
deriving DecidableEq, Repr

/-- `EtradeCrawler.sanity_check` (etrade_crawler.py:401-435): the total-value
check divides by `max(computed, 1.0)` and raises on mismatch; the
unrealized-gain check divides by `max(|computed|, 1.0)` and only *logs a
warning*, letting the scrape continue. -/
def etrade_sanity_check (total_row : Option (ℚ × ℚ))
    (holdings : List Holding) : EtradeSanityOutcome :=
  match total_row with
  | none => .raiseTotalsRowMissing
  | some (reported_total_value, reported_unrealized_gain) =>
    let computed_total_value := sumBy Holding.current_value holdings
    let computed_unrealized_gain := sumBy Holding.unrealized_gain_loss holdings
    if |computed_total_value - reported_total_value| / max computed_total_value 1 >
        TOTAL_CHECK_TOLERANCE then .raiseValueMismatch
    else if |computed_unrealized_gain - reported_unrealized_gain| /
        max |computed_unrealized_gain| 1 > TOTAL_CHECK_TOLERANCE then .warnPass
    else .pass

/-! ## Cross-broker pipeline (src/backend/fetch_all_positions.py) -/

/-- One step of the `grouped.setdefault(symbol, []).append(holding)` loop
(fetch_all_positions.py:92-97): append the holding to its symbol's group,
keeping first-seen key order. -/
def insertGrouped (h : Holding) :
    List (String × List Holding) → List (String × List Holding)
  | [] => [(h.symbol, [h])]
  | (s, g) :: rest =>
    if s = h.symbol then (s, g ++ [h]) :: rest
    else (s, g) :: insertGrouped h rest

/-- Group the successful results' holdings by symbol
(fetch_all_positions.py:92-97): failed results are skipped entirely. -/
def groupSuccessfulBySymbol (results : List CrawlerResult) :
    List (String × List Holding) :=
  (results.foldl
    (fun acc r => if r.success then acc ++ r.holdings else acc) []).foldl
    (fun acc h => insertGrouped h acc) []

/-- Python's `sorted` comparison on strings (code-point lexicographic). -/
def strLe (a b : String) : Bool :=
  a < b || a = b

/-- Insertion sort of the grouped symbols by key, modelling
`sorted(grouped.keys())` (fetch_all_positions.py:100). -/
def insertSorted (e : String × List Holding) :
    List (String × List Holding) → List (String × List Holding)
  | [] => [e]
  | x :: rest =>
    if strLe e.1 x.1 then e :: x :: rest else x :: insertSorted e rest

/-- Sort the group list by symbol. -/
def sortGroups (l : List (String × List Holding)) :
    List (String × List Holding) :=
  l.foldr insertSorted []

/-- `_combine_successful_holdings` (fetch_all_positions.py:91-102): group the
successful brokers' holdings by symbol, then combine each group in sorted
symbol order.  A raise inside `_combine_symbol_group` propagates. -/
def combine_successful_holdings (results : List CrawlerResult) :
    PyResult (List Holding) :=
  let groups := sortGroups (groupSuccessfulBySymbol results)
  groups.foldr
    (fun (e : String × List Holding) (acc : PyResult (List Holding)) =>
      match fetch_combine_symbol_group e.1 e.2, acc with
      | .ok h, .ok hs => .ok (h :: hs)
      | .exn m, _ => .exn m
      | _, .exn m => .exn m)
    (.ok [])

/-- `_assign_portfolio_percentages` (fetch_all_positions.py:105-114): when
the total current value is 0 the list is returned unchanged; otherwise each
holding's `portfolio_percentage` becomes its share of the total. -/
def assign_portfolio_percentages (holdings : List Holding) : List Holding :=
  let total_value := sumBy Holding.current_value holdings
  if total_value = 0 then holdings
  else holdings.map
    (fun h => { h with portfolio_percentage := some (h.current_value / total_value) })

/-- The pydantic construction `Portfolio(...)` as called at
fetch_all_positions.py:150-159.  pydantic validates keyword arguments
against the model: a missing required field raises `ValidationError`
(extra keywords, such as the `day_change_percent` and `day_change_dollars`
the call site passes though the model has no such fields, are ignored).
`brokers_updated` is required by the model and is received here as the
optional keyword the call site did (or did not) pass. -/
def pydantic_portfolio (holdings : List Holding)
    (total_value total_cost_basis total_unrealized_gain_loss
      total_unrealized_gain_loss_percent : ℚ)
    (brokers_updated : Option (List String)) : PyResult Portfolio :=
  match brokers_updated with
  | none => .exn "ValidationError: brokers_updated Field required"
  | some bu =>
    .ok {
      holdings := holdings
      total_value := total_value
      total_cost_basis := total_cost_basis
      total_unrealized_gain_loss := total_unrealized_gain_loss
      total_unrealized_gain_loss_percent := total_unrealized_gain_loss_percent
      brokers_updated := bu }

/-- `fetch_all_positions` (fetch_all_positions.py:123-167), starting from the
per-broker `CrawlerResult`s (the browser-driving crawl that produces them is
outside the numeric core): combine the successful brokers' holdings, assign
portfolio percentages, compute the aggregate totals, and construct the
`Portfolio`.  The call site passes no `brokers_updated` keyword, which is
modelled by handing `none` to the pydantic constructor. -/
def fetch_all_positions (results : List CrawlerResult) : PyResult Portfolio :=
  match combine_successful_holdings results with
  | .exn m => .exn m
  | .ok combined_holdings =>
    let holdings_with_percentages := assign_portfolio_percentages combined_holdings
    let total_value := sumBy Holding.current_value holdings_with_percentages
    let total_cost_basis := sumBy Holding.cost_basis holdings_with_percentages
    let total_unrealized := sumBy Holding.unrealized_gain_loss holdings_with_percentages
    let total_unrealized_percent :=
      if total_cost_basis ≠ 0 then total_unrealized / total_cost_basis else 0
    pydantic_portfolio holdings_with_percentages total_value total_cost_basis
      total_unrealized total_unrealized_percent none

/-! ## Concrete fixtures used by the theorems -/

/-- Fixture: a minimal holding with every numeric field set to a small
concrete value. -/
def fixtureHolding : Holding :=
  { symbol := "AAPL", description := "Apple Inc", quantity := 1, price := 1,
    unit_cost := 1, cost_basis := 1, current_value := 1, day_change_percent := 0,
    day_change_dollars := 0, unrealized_gain_loss := 0,
    unrealized_gain_loss_percent := 0, portfolio_percentage := none, brokers := [] }

/-- Fixture with a chosen current value and unrealized gain/loss. -/
def sanityHolding (cv ugl : ℚ) : Holding :=
  { fixtureHolding with current_value := cv, unrealized_gain_loss := ugl }

/-- Fixture whose computed unrealized-gain sum is exactly zero. -/
def c10Holding : Holding := sanityHolding 100 0

/-- Fixture for the Merrill day-change division: nonzero current value equal
to the day change, so the divisor `current_value - day_change_dollars` is 0
while the code's guard `current_value != 0` passes. -/
def c6Holding : Holding :=
  { fixtureHolding with
      quantity := 1, cost_basis := 4, current_value := 5,
      day_change_dollars := 5, unrealized_gain_loss := 1,
      unrealized_gain_loss_percent := 1/4, brokers := [("Merrill Lynch", 5)] }

/-- Fixture holding that carries a portfolio percentage. -/
def c7WithPct : Holding :=
  { fixtureHolding with portfolio_percentage := some (1/2) }

/-- Fixture holding that lacks a portfolio percentage. -/
def c7WithoutPct : Holding :=
  { fixtureHolding with portfolio_percentage := none }

/-- Combined holding produced by the Merrill combine from the group
`[c7WithPct, c7WithoutPct]`. -/
def c7Combined : Holding :=
  { symbol := "AAPL", description := "Apple Inc", quantity := 2, price := 1,
    unit_cost := 1, cost_basis := 2, current_value := 2, day_change_percent := 0,
    day_change_dollars := 0, unrealized_gain_loss := 0,
    unrealized_gain_loss_percent := 0, portfolio_percentage := some (1/2),
    brokers := [("Merrill Lynch", 2)] }

/-- Combined holding produced by the cross-broker combine from the singleton
group `[fixtureHolding]`. -/
def c2Combined : Holding :=
  { symbol := "AAPL", description := "Apple Inc", quantity := 1, price := 1,
    unit_cost := 1, cost_basis := 1, current_value := 1, day_change_percent := 0,
    day_change_dollars := 0, unrealized_gain_loss := 0,
    unrealized_gain_loss_percent := 0, portfolio_percentage := none, brokers := [] }

/-- End-to-end scenario holding (spec section 8): AAPL worth 17500. -/
def aaplHolding : Holding :=
  { fixtureHolding with
      symbol := "AAPL", description := "Apple Inc", quantity := 100,
      price := 175, unit_cost := 100, cost_basis := 10000,
      current_value := 17500, unrealized_gain_loss := 7500,
      unrealized_gain_loss_percent := 3/4, brokers := [("Chase", 17500)] }

/-- End-to-end scenario holding: GOOGL worth 7250. -/
def googlHolding : Holding :=
  { fixtureHolding with
      symbol := "GOOGL", description := "Alphabet Inc", quantity := 50,
      price := 145, unit_cost := 100, cost_basis := 5000,
      current_value := 7250, unrealized_gain_loss := 2250,
      unrealized_gain_loss_percent := 9/20, brokers := [("ETRADE", 7250)] }

/-- End-to-end scenario holding: TSLA worth 6250. -/
def tslaHolding : Holding :=
  { fixtureHolding with
      symbol := "TSLA", description := "Tesla Inc", quantity := 25,
      price := 250, unit_cost := 200, cost_basis := 5000,
      current_value := 6250, unrealized_gain_loss := 1250,
      unrealized_gain_loss_percent := 1/4, brokers := [("Merrill Lynch", 6250)] }

/-! ## Helper lemmas -/

lemma mem_of_mem_dropWhile {p : Char → Bool} {c : Char} :
    ∀ {l : List Char}, c ∈ l.dropWhile p → c ∈ l := by
  intro l
  induction l with
  | nil => simp [List.dropWhile]
  | cons a as ih =>
    rw [List.dropWhile_cons]
    split
    · intro h; exact List.mem_cons_of_mem a (ih h)
    · exact fun h => h

lemma mem_of_mem_pstrip {c : Char} {l : List Char} (h : c ∈ pstrip l) : c ∈ l := by
  unfold pstrip at h
  rw [List.mem_reverse] at h
  have h2 := mem_of_mem_dropWhile h
  rw [List.mem_reverse] at h2
  exact mem_of_mem_dropWhile h2

lemma matchNumberAt_eq_none (l : List Char) (h : ∀ c ∈ l, c.isDigit = false) :
    matchNumberAt l = none := by
  unfold matchNumberAt
  split
  · next c rest =>
    rw [h c (by simp)]
    rfl
  · next c rest hne =>
    rw [h c (by simp)]
    rfl
  · rfl

lemma searchNumber_eq_none (l : List Char) (h : ∀ c ∈ l, c.isDigit = false) :
    searchNumber l = none := by
  induction l with
  | nil => rfl
  | cons c rest ih =>
    unfold searchNumber
    rw [matchNumberAt_eq_none (c :: rest) h]
    exact ih (fun x hx => h x (List.mem_cons_of_mem c hx))

lemma insertGrouped_nonempty {h : Holding} :
    ∀ {l : List (String × List Holding)}, (∀ e ∈ l, e.2 ≠ []) →
      ∀ e ∈ insertGrouped h l, e.2 ≠ [] := by
  intro l
  induction l with
  | nil =>
    intro _ e he
    simp only [insertGrouped, List.mem_singleton] at he
    subst he
    simp
  | cons x rest ih =>
    intro hl e he
    obtain ⟨s, g⟩ := x
    simp only [insertGrouped] at he
    split at he
    · rcases List.mem_cons.1 he with h1 | h2
      · subst h1
        simp
      · exact hl _ (List.mem_cons_of_mem _ h2)
    · rcases List.mem_cons.1 he with h1 | h2
      · subst h1
        exact hl _ (List.mem_cons_self _ _)
      · exact ih (fun e' he' => hl e' (List.mem_cons_of_mem _ he')) e h2

lemma foldl_insertGrouped_nonempty :
    ∀ (hs : List Holding) (acc : List (String × List Holding)),
      (∀ e ∈ acc, e.2 ≠ []) →
      ∀ e ∈ hs.foldl (fun a h => insertGrouped h a) acc, e.2 ≠ [] := by
  intro hs
  induction hs with
  | nil => intro acc hacc; exact hacc
  | cons h rest ih =>
    intro acc hacc
    exact ih _ (insertGrouped_nonempty hacc)

lemma groupSuccessfulBySymbol_nonempty (results : List CrawlerResult) :
    ∀ e ∈ groupSuccessfulBySymbol results, e.2 ≠ [] := by
  unfold groupSuccessfulBySymbol
  exact foldl_insertGrouped_nonempty _ [] (by simp)

lemma mem_insertSorted {x e : String × List Holding} :
    ∀ {l : List (String × List Holding)}, e ∈ insertSorted x l → e = x ∨ e ∈ l := by
  intro l
  induction l with
  | nil =>
    intro he
    simp only [insertSorted, List.mem_singleton] at he
    exact Or.inl he
  | cons y rest ih =>
    intro he
    simp only [insertSorted] at he
    split at he
    · rcases List.mem_cons.1 he with h1 | h2
      · exact Or.inl h1
      · exact Or.inr h2
    · rcases List.mem_cons.1 he with h1 | h2
      · exact Or.inr (by simp [h1])
      · rcases ih h2 with h3 | h4
        · exact Or.inl h3
        · exact Or.inr (List.mem_cons_of_mem _ h4)

lemma mem_sortGroups {e : String × List Holding} :
    ∀ {l : List (String × List Holding)}, e ∈ sortGroups l → e ∈ l := by
  intro l
  induction l with
  | nil => intro he; exact he
  | cons x rest ih =>
    intro he
    have hx : sortGroups (x :: rest) = insertSorted x (sortGroups rest) := rfl
    rw [hx] at he
    rcases mem_insertSorted he with h1 | h2
    · simp [h1]
    · exact List.mem_cons_of_mem _ (ih h2)

lemma fetch_combine_ok_of_ne_nil {s : String} {g : List Holding} (h : g ≠ []) :
    ∃ c, fetch_combine_symbol_group s g = .ok c := by
  cases g with
  | nil => exact absurd rfl h
  | cons a b => exact ⟨_, rfl⟩

lemma combine_groups_ok :
    ∀ (groups : List (String × List Holding)), (∀ e ∈ groups, e.2 ≠ []) →
      ∃ hs, groups.foldr
        (fun (e : String × List Holding) (acc : PyResult (List Holding)) =>
          match fetch_combine_symbol_group e.1 e.2, acc with
          | .ok h, .ok hs => .ok (h :: hs)
          | .exn m, _ => .exn m
          | _, .exn m => .exn m)
        (.ok []) = .ok hs := by
  intro groups
  induction groups with
  | nil => exact fun _ => ⟨[], rfl⟩
  | cons e rest ih =>
    intro hne
    obtain ⟨hs, hrest⟩ := ih (fun e' he' => hne e' (List.mem_cons_of_mem _ he'))
    obtain ⟨c, hc⟩ := @fetch_combine_ok_of_ne_nil e.1 e.2 (hne e (List.mem_cons_self _ _))
    refine ⟨c :: hs, ?_⟩
    simp only [List.foldr_cons, hrest, hc]

lemma combine_successful_holdings_ok (results : List CrawlerResult) :
    ∃ hs, combine_successful_holdings results = .ok hs := by
  unfold combine_successful_holdings
  apply combine_groups_ok
  intro e he
  exact groupSuccessfulBySymbol_nonempty results e (mem_sortGroups he)

/-! ## Claim theorems -/

/-- C3: the decimal-mode numeric normalizer (Chase and E*Trade variants) maps
"$1,234.56" to 1234.56, "(42.10)" to -42.10 and "121.61Loss of -0.51" to
121.61 (first-number rule), and raises a parse error for the empty string and
for any input containing no numeric substring (no digit). -/
theorem c3_clean_decimal_spec :
    chase_clean_decimal_text "$1,234.56" = .ok 1234.56 ∧
    chase_clean_decimal_text "(42.10)" = .ok (-42.10) ∧
    chase_clean_decimal_text "121.61Loss of -0.51" = .ok 121.61 ∧
    etrade_clean_decimal_text "$1,234.56" = .ok 1234.56 ∧
    etrade_clean_decimal_text "(42.10)" = .ok (-42.10) ∧
    etrade_clean_decimal_text "121.61Loss of -0.51" = .ok 121.61 ∧
    (chase_clean_decimal_text "").isErr = true ∧
    (etrade_clean_decimal_text "").isErr = true ∧
    (∀ s : String, (∀ c ∈ s.data, c.isDigit = false) →
      (chase_clean_decimal_text s).isErr = true ∧
      (etrade_clean_decimal_text s).isErr = true) := by
  refine ⟨by with_unfolding_all rfl, by with_unfolding_all rfl, by with_unfolding_all rfl,
    by with_unfolding_all rfl, by with_unfolding_all rfl, by with_unfolding_all rfl,
    rfl, rfl, ?_⟩
  intro s hs
  constructor
  · unfold chase_clean_decimal_text
    split
    · rfl
    · next hne =>
      have hnod : ∀ c ∈ removeDollarComma
          (if containsChar '(' (pstrip s.data) && containsChar ')' (pstrip s.data) then
            removeParens (pstrip s.data) else pstrip s.data), c.isDigit = false := by
        intro c hc
        unfold removeDollarComma at hc
        have hc2 := (List.mem_filter.1 hc).1
        have hc3 : c ∈ pstrip s.data := by
          split at hc2
          · exact (List.mem_filter.1 hc2).1
          · exact hc2
        exact hs c (mem_of_mem_pstrip hc3)
      simp only [searchNumber_eq_none _ hnod, ParseResult.isErr]
  · unfold etrade_clean_decimal_text
    split
    · rfl
    · next hne =>
      have hnod : ∀ c ∈ removeMoneyPctPlus
          (if containsChar '(' (pstrip s.data) && containsChar ')' (pstrip s.data) then
            removeParens (pstrip s.data) else pstrip s.data), c.isDigit = false := by
        intro c hc
        unfold removeMoneyPctPlus at hc
        have hc2 := (List.mem_filter.1 hc).1
        have hc3 : c ∈ pstrip s.data := by
          split at hc2
          · exact (List.mem_filter.1 hc2).1
          · exact hc2
        exact hs c (mem_of_mem_pstrip hc3)
      simp only [searchNumber_eq_none _ hnod, ParseResult.isErr]

/-- C3 witness: the no-digit error case evaluated at the concrete input
"N/A". -/
theorem c3_clean_decimal_spec_witness :
    (∀ c ∈ "N/A".data, c.isDigit = false) ∧
    (chase_clean_decimal_text "N/A").isErr = true ∧
    (etrade_clean_decimal_text "N/A").isErr = true := by
  have hnd : ∀ c ∈ "N/A".data, c.isDigit = false := by decide
  exact ⟨hnd, (c3_clean_decimal_spec.2.2.2.2.2.2.2.2 "N/A" hnd).1,
    (c3_clean_decimal_spec.2.2.2.2.2.2.2.2 "N/A" hnd).2⟩

/-- C4 counterexample: the claim says every broker variant's percent-mode
normalizer returns a negative fraction for an input with the "Loss of"
prefix, in particular -0.0042 for "Loss of 0.42%".  The E*Trade variant has
no "Loss of" handling and returns +0.0042. -/
theorem c4_counterexample :
    etrade_clean_percentage_text "Loss of 0.42%" = .ok 0.0042 ∧
    ¬ ((0.0042 : ℚ) = -0.0042) := by
  exact ⟨by with_unfolding_all rfl, by norm_num⟩

/-- C4 amended: the Chase and Merrill percent normalizers return the negation
of (first extracted number / 100) for "Loss of" inputs without parentheses
and the positive fraction with a "Gain of" prefix stripped — in particular
-0.0042 for "Loss of 0.42%" and 0.015 for "Gain of 1.5%" — while the E*Trade
variant recognizes neither prefix and returns the signed first number / 100
(+0.0042 and +0.015 on the same inputs); the Merrill variant agrees with the
Chase variant on every input. -/
theorem c4_percent_amended :
    chase_clean_percentage_text "Loss of 0.42%" = .ok (-0.0042) ∧
    merrill_clean_percentage_text "Loss of 0.42%" = .ok (-0.0042) ∧
    chase_clean_percentage_text "Gain of 1.5%" = .ok 0.015 ∧
    merrill_clean_percentage_text "Gain of 1.5%" = .ok 0.015 ∧
    etrade_clean_percentage_text "Loss of 0.42%" = .ok 0.0042 ∧
    etrade_clean_percentage_text "Gain of 1.5%" = .ok 0.015 ∧
    (∀ s : String, merrill_clean_percentage_text s = chase_clean_percentage_text s) ∧
    (∀ s : String, s ≠ "" →
      hasLossOf (pstrip s.data) = true →
      (containsChar '(' (pstrip s.data) && containsChar ')' (pstrip s.data)) = false →
      chase_clean_percentage_text s =
        match searchNumber (removePctPlus (pstrip (removeLossOf (pstrip s.data)))) with
        | some (mneg, ds, fs) => .ok (-(numberValue mneg ds fs / 100))
        | none => .error "No valid percentage found in text") := by
  refine ⟨by with_unfolding_all rfl, by with_unfolding_all rfl, by with_unfolding_all rfl,
    by with_unfolding_all rfl, by with_unfolding_all rfl, by with_unfolding_all rfl,
    fun s => rfl, ?_⟩
  intro s hne hloss hnoparens
  unfold chase_clean_percentage_text
  rw [if_neg hne]
  simp only [hloss, hnoparens, Bool.false_eq_true, if_false, Bool.not_false, Bool.true_and,
    Bool.false_or, if_true, ite_true, ite_false]

/-- C4 witness: the general "Loss of" rule applied at the concrete input
"Loss of 0.42%". -/
theorem c4_percent_amended_witness :
    hasLossOf (pstrip "Loss of 0.42%".data) = true ∧
    chase_clean_percentage_text "Loss of 0.42%" =
      (match searchNumber (removePctPlus (pstrip (removeLossOf
          (pstrip "Loss of 0.42%".data)))) with
        | some (mneg, ds, fs) => .ok (-(numberValue mneg ds fs / 100))
        | none => .error "No valid percentage found in text") := by
  exact ⟨rfl, c4_percent_amended.2.2.2.2.2.2.2 "Loss of 0.42%" (by decide) rfl rfl⟩

/-- C1 counterexample: with computed totals (100, -100) and reported totals
(100, 100) the relative error of the unrealized gain against the reported
figure is 2 (way beyond 0.01), yet the Chase sanity check passes, because it
divides by the signed computed sum (-100) instead of the reported figure's
absolute value. -/
theorem c1_counterexample :
    chase_sanity_check 100 100 [sanityHolding 100 (-100)] = .pass ∧
    |(-100 : ℚ) - 100| / |(100 : ℚ)| > TOTAL_CHECK_TOLERANCE := by
  exact ⟨by with_unfolding_all rfl, by norm_num [TOTAL_CHECK_TOLERANCE]⟩

/-- C1 amended: each broker's actual reconciliation condition.  Chase (with
nonzero computed sums) passes iff both relative errors taken against the
*signed computed* sums are at most 0.01; Merrill (with nonzero reported
figures) returns True iff both relative errors taken against the *signed
reported* figures are at most 0.01, and otherwise returns False rather than
raising; E*Trade raises iff the total-value error against
max(computed, 1) exceeds 0.01 — its unrealized-gain comparison never
raises. -/
theorem c1_sanity_check_characterization :
    (∀ (rcv rug : ℚ) (hs : List Holding),
      sumBy Holding.current_value hs ≠ 0 →
      sumBy Holding.unrealized_gain_loss hs ≠ 0 →
      (chase_sanity_check rcv rug hs = .pass ↔
        |sumBy Holding.current_value hs - rcv| / sumBy Holding.current_value hs ≤
          TOTAL_CHECK_TOLERANCE ∧
        |sumBy Holding.unrealized_gain_loss hs - rug| / sumBy Holding.unrealized_gain_loss hs ≤
          TOTAL_CHECK_TOLERANCE)) ∧
    (∀ (rcv rug : ℚ) (hs : List Holding), rcv ≠ 0 → rug ≠ 0 →
      (merrill_sanity_check (some (rcv, rug)) hs = .retTrue ↔
        |sumBy Holding.current_value hs - rcv| / rcv ≤ TOTAL_CHECK_TOLERANCE ∧
        |sumBy Holding.unrealized_gain_loss hs - rug| / rug ≤ TOTAL_CHECK_TOLERANCE) ∧
      (merrill_sanity_check (some (rcv, rug)) hs = .retTrue ∨
        merrill_sanity_check (some (rcv, rug)) hs = .retFalse)) ∧
    (∀ (rtv rug : ℚ) (hs : List Holding),
      etrade_sanity_check (some (rtv, rug)) hs = .raiseValueMismatch ↔
        |sumBy Holding.current_value hs - rtv| / max (sumBy Holding.current_value hs) 1 >
          TOTAL_CHECK_TOLERANCE) := by
  refine ⟨?_, ?_, ?_⟩
  · intro rcv rug hs hcv hug
    simp only [chase_sanity_check]
    split_ifs with h1 h2 h3
    · exact absurd h1 hcv
    · simp only [reduceCtorEq, false_iff, not_and]
      intro hA
      exact absurd hA (not_le.2 h2)
    · simp only [reduceCtorEq, false_iff, not_and]
      intro _ hB
      exact absurd hB (not_le.2 h3)
    · simp only [true_iff]
      exact ⟨not_lt.1 h2, not_lt.1 h3⟩
  · intro rcv rug hs hrcv hrug
    simp only [merrill_sanity_check]
    split_ifs with h1 h2 h3
    · exact absurd h1 hrcv
    · constructor
      · simp only [reduceCtorEq, false_iff, not_and]
        intro hA
        exact absurd hA (not_le.2 h2)
      · right; rfl
    · constructor
      · simp only [reduceCtorEq, false_iff, not_and]
        intro _ hB
        exact absurd hB (not_le.2 h3)
      · right; rfl
    · constructor
      · simp only [true_iff]
        exact ⟨not_lt.1 h2, not_lt.1 h3⟩
      · left; rfl
  · intro rtv rug hs
    simp only [etrade_sanity_check]
    split_ifs with h1 h2
    · simp only [true_iff]
      exact h1
    · simp only [reduceCtorEq, false_iff, not_lt]
      exact not_lt.1 h1
    · simp only [reduceCtorEq, false_iff, not_lt]
      exact not_lt.1 h1

/-- C1 witness: the Chase characterization applied at a concrete holding
list with computed sums (100, 50). -/
theorem c1_characterization_witness :
    sumBy Holding.current_value [sanityHolding 100 50] ≠ 0 ∧
    sumBy Holding.unrealized_gain_loss [sanityHolding 100 50] ≠ 0 ∧
    (chase_sanity_check 100 50 [sanityHolding 100 50] = .pass ↔
      |sumBy Holding.current_value [sanityHolding 100 50] - 100| /
        sumBy Holding.current_value [sanityHolding 100 50] ≤ TOTAL_CHECK_TOLERANCE ∧
      |sumBy Holding.unrealized_gain_loss [sanityHolding 100 50] - 50| /
        sumBy Holding.unrealized_gain_loss [sanityHolding 100 50] ≤ TOTAL_CHECK_TOLERANCE) := by
  have hcv : sumBy Holding.current_value [sanityHolding 100 50] ≠ 0 := by
    rw [show sumBy Holding.current_value [sanityHolding 100 50] = 100 from by
      with_unfolding_all rfl]
    norm_num
  have hug : sumBy Holding.unrealized_gain_loss [sanityHolding 100 50] ≠ 0 := by
    rw [show sumBy Holding.unrealized_gain_loss [sanityHolding 100 50] = 50 from by
      with_unfolding_all rfl]
    norm_num
  exact ⟨hcv, hug, c1_sanity_check_characterization.1 100 50 [sanityHolding 100 50] hcv hug⟩

/-- C5 counterexample: the claim says a beyond-tolerance divergence always
raises and is never downgraded to a warning; with computed sums (100, 10)
and reported totals (100, 1000) the unrealized-gain error is 99 (far beyond
0.01), yet the E*Trade check merely logs a warning and returns normally. -/
theorem c5_counterexample :
    etrade_sanity_check (some (100, 1000)) [sanityHolding 100 10] = .warnPass ∧
    |(10 : ℚ) - 1000| / max |(10 : ℚ)| 1 > TOTAL_CHECK_TOLERANCE ∧
    EtradeSanityOutcome.warnPass ≠ .raiseValueMismatch ∧
    EtradeSanityOutcome.warnPass ≠ .raiseTotalsRowMissing := by
  refine ⟨by with_unfolding_all rfl, by norm_num [TOTAL_CHECK_TOLERANCE], by simp, by simp⟩

/-- C5 amended: only the Chase check raises for both metrics.  Merrill (with
nonzero reported figures) always returns a boolean — False on a total-value
mismatch — and never raises; E*Trade downgrades an unrealized-gain mismatch
to a warning outcome whenever its total-value check passes; Chase raises
for a total-value mismatch and, when the total-value check passes, for an
unrealized-gain mismatch (signed computed denominators, nonzero computed
sums). -/
theorem c5_downgrade_characterization :
    (∀ (rcv rug : ℚ) (hs : List Holding), rcv ≠ 0 → rug ≠ 0 →
      (merrill_sanity_check (some (rcv, rug)) hs = .retTrue ∨
        merrill_sanity_check (some (rcv, rug)) hs = .retFalse) ∧
      (|sumBy Holding.current_value hs - rcv| / rcv > TOTAL_CHECK_TOLERANCE →
        merrill_sanity_check (some (rcv, rug)) hs = .retFalse)) ∧
    (∀ (rtv rug : ℚ) (hs : List Holding),
      |sumBy Holding.current_value hs - rtv| / max (sumBy Holding.current_value hs) 1 ≤
        TOTAL_CHECK_TOLERANCE →
      |sumBy Holding.unrealized_gain_loss hs - rug| /
        max |sumBy Holding.unrealized_gain_loss hs| 1 > TOTAL_CHECK_TOLERANCE →
      etrade_sanity_check (some (rtv, rug)) hs = .warnPass) ∧
    (∀ (rcv rug : ℚ) (hs : List Holding),
      sumBy Holding.current_value hs ≠ 0 →
      (|sumBy Holding.current_value hs - rcv| / sumBy Holding.current_value hs >
          TOTAL_CHECK_TOLERANCE →
        chase_sanity_check rcv rug hs = .raiseValueMismatch) ∧
      (sumBy Holding.unrealized_gain_loss hs ≠ 0 →
        |sumBy Holding.current_value hs - rcv| / sumBy Holding.current_value hs ≤
          TOTAL_CHECK_TOLERANCE →
        |sumBy Holding.unrealized_gain_loss hs - rug| / sumBy Holding.unrealized_gain_loss hs >
          TOTAL_CHECK_TOLERANCE →
        chase_sanity_check rcv rug hs = .raiseUnrealizedMismatch)) := by
  refine ⟨?_, ?_, ?_⟩
  · intro rcv rug hs hrcv hrug
    constructor
    · simp only [merrill_sanity_check]
      split_ifs with h1 h2 h3
      · exact absurd h1 hrcv
      · right; rfl
      · right; rfl
      · left; rfl
    · intro hbad
      simp only [merrill_sanity_check]
      split_ifs with h1
      · exact absurd h1 hrcv
      · rfl
  · intro rtv rug hs hv hu
    simp only [etrade_sanity_check]
    split_ifs with h1
    · exact absurd h1 (not_lt.2 hv)
    · rfl
  · intro rcv rug hs hcv
    constructor
    · intro hbad
      simp only [chase_sanity_check]
      split_ifs with h1
      · exact absurd h1 hcv
      · rfl
    · intro hug hok hbad
      simp only [chase_sanity_check]
      split_ifs with h1 h2
      · exact absurd h1 hcv
      · exact absurd h2 (not_lt.2 hok)
      · rfl

/-- C5 witness: the E*Trade warning outcome at computed sums (200, 20) and
reported totals (200, 2000). -/
theorem c5_downgrade_witness :
    |sumBy Holding.current_value [sanityHolding 200 20] - 200| /
      max (sumBy Holding.current_value [sanityHolding 200 20]) 1 ≤ TOTAL_CHECK_TOLERANCE ∧
    |sumBy Holding.unrealized_gain_loss [sanityHolding 200 20] - 2000| /
      max |sumBy Holding.unrealized_gain_loss [sanityHolding 200 20]| 1 >
      TOTAL_CHECK_TOLERANCE ∧
    etrade_sanity_check (some (200, 2000)) [sanityHolding 200 20] = .warnPass := by
  have hcv : sumBy Holding.current_value [sanityHolding 200 20] = 200 := by
    with_unfolding_all rfl
  have hug : sumBy Holding.unrealized_gain_loss [sanityHolding 200 20] = 20 := by
    with_unfolding_all rfl
  have h1 : |sumBy Holding.current_value [sanityHolding 200 20] - 200| /
      max (sumBy Holding.current_value [sanityHolding 200 20]) 1 ≤ TOTAL_CHECK_TOLERANCE := by
    rw [hcv]; norm_num [TOTAL_CHECK_TOLERANCE]
  have h2 : |sumBy Holding.unrealized_gain_loss [sanityHolding 200 20] - 2000| /
      max |sumBy Holding.unrealized_gain_loss [sanityHolding 200 20]| 1 >
      TOTAL_CHECK_TOLERANCE := by
    rw [hug]; norm_num [TOTAL_CHECK_TOLERANCE]
  exact ⟨h1, h2, c5_downgrade_characterization.2.1 200 2000 [sanityHolding 200 20] h1 h2⟩

/-- C10 counterexample: the claim says the Chase unrealized-gain comparison
never raises when the computed sum is negative *or zero*; at a computed sum
of exactly zero the division itself raises ZeroDivisionError. -/
theorem c10_counterexample :
    chase_sanity_check 100 1000 [c10Holding] = .zeroDivisionError ∧
    ChaseSanityOutcome.zeroDivisionError ≠ .pass := by
  exact ⟨by with_unfolding_all rfl, by simp⟩

/-- C10 amended: whenever the computed unrealized-gain sum is strictly
negative and the total-value check passes (nonzero computed total value),
the Chase sanity check passes no matter how far the reported unrealized
gain diverges, because the absolute difference is divided by the signed
negative sum. -/
theorem c10_negative_gain_never_raises :
    ∀ (rcv rug : ℚ) (hs : List Holding),
      sumBy Holding.unrealized_gain_loss hs < 0 →
      sumBy Holding.current_value hs ≠ 0 →
      |sumBy Holding.current_value hs - rcv| / sumBy Holding.current_value hs ≤
        TOTAL_CHECK_TOLERANCE →
      chase_sanity_check rcv rug hs = .pass := by
  intro rcv rug hs hneg hcv hok
  simp only [chase_sanity_check]
  split_ifs with h1 h2 h3 h4
  · exact absurd h1 hcv
  · exact absurd h2 (not_lt.2 hok)
  · exact absurd h3 (ne_of_lt hneg)
  · exfalso
    have hnum : (0 : ℚ) ≤ |sumBy Holding.unrealized_gain_loss hs - rug| := abs_nonneg _
    have hq : |sumBy Holding.unrealized_gain_loss hs - rug| /
        sumBy Holding.unrealized_gain_loss hs ≤ 0 :=
      div_nonpos_of_nonneg_of_nonpos hnum (le_of_lt hneg)
    have hx : TOTAL_CHECK_TOLERANCE < (0 : ℚ) := lt_of_lt_of_le h4 hq
    norm_num [TOTAL_CHECK_TOLERANCE] at hx
  · rfl

/-- C10 witness: the negative-gain pass at computed sums (100, -50) with a
wildly diverging reported unrealized gain of 12345. -/
theorem c10_negative_gain_witness :
    sumBy Holding.unrealized_gain_loss [sanityHolding 100 (-50)] < 0 ∧
    sumBy Holding.current_value [sanityHolding 100 (-50)] ≠ 0 ∧
    |sumBy Holding.current_value [sanityHolding 100 (-50)] - 100| /
      sumBy Holding.current_value [sanityHolding 100 (-50)] ≤ TOTAL_CHECK_TOLERANCE ∧
    chase_sanity_check 100 12345 [sanityHolding 100 (-50)] = .pass := by
  have hcv : sumBy Holding.current_value [sanityHolding 100 (-50)] = 100 := by
    with_unfolding_all rfl
  have hug : sumBy Holding.unrealized_gain_loss [sanityHolding 100 (-50)] = -50 := by
    with_unfolding_all rfl
  have h1 : sumBy Holding.unrealized_gain_loss [sanityHolding 100 (-50)] < 0 := by
    rw [hug]; norm_num
  have h2 : sumBy Holding.current_value [sanityHolding 100 (-50)] ≠ 0 := by
    rw [hcv]; norm_num
  have h3 : |sumBy Holding.current_value [sanityHolding 100 (-50)] - 100| /
      sumBy Holding.current_value [sanityHolding 100 (-50)] ≤ TOTAL_CHECK_TOLERANCE := by
    rw [hcv]; norm_num [TOTAL_CHECK_TOLERANCE]
  exact ⟨h1, h2, h3, c10_negative_gain_never_raises 100 12345 [sanityHolding 100 (-50)] h1 h2 h3⟩

/-- C2: whenever either symbol-group combiner (the Merrill intra-broker one
or the cross-broker one) produces a consolidated holding from a non-empty
group, its quantity, cost basis, current value, day-change dollars and
unrealized gain/loss are the exact sums of the members' fields, and its
price is the summed current value over the summed quantity when the summed
quantity is nonzero and 0 otherwise; the cross-broker combiner always
produces a holding. -/
theorem c2_combine_sums :
    ∀ (b sym : String) (base : Holding) (rest : List Holding),
      (∀ c, fetch_combine_symbol_group sym (base :: rest) = .ok c →
        c.quantity = sumBy Holding.quantity (base :: rest) ∧
        c.cost_basis = sumBy Holding.cost_basis (base :: rest) ∧
        c.current_value = sumBy Holding.current_value (base :: rest) ∧
        c.day_change_dollars = sumBy Holding.day_change_dollars (base :: rest) ∧
        c.unrealized_gain_loss = sumBy Holding.unrealized_gain_loss (base :: rest) ∧
        c.price = (if sumBy Holding.quantity (base :: rest) = 0 then 0
          else sumBy Holding.current_value (base :: rest) /
            sumBy Holding.quantity (base :: rest))) ∧
      (∃ c, fetch_combine_symbol_group sym (base :: rest) = .ok c) ∧
      (∀ c, merrill_combine_symbol_group b sym (base :: rest) = .ok c →
        c.quantity = sumBy Holding.quantity (base :: rest) ∧
        c.cost_basis = sumBy Holding.cost_basis (base :: rest) ∧
        c.current_value = sumBy Holding.current_value (base :: rest) ∧
        c.day_change_dollars = sumBy Holding.day_change_dollars (base :: rest) ∧
        c.unrealized_gain_loss = sumBy Holding.unrealized_gain_loss (base :: rest) ∧
        c.price = (if sumBy Holding.quantity (base :: rest) = 0 then 0
          else sumBy Holding.current_value (base :: rest) /
            sumBy Holding.quantity (base :: rest))) := by
  intro b sym base rest
  refine ⟨?_, ⟨_, rfl⟩, ?_⟩
  · intro c hc
    simp only [fetch_combine_symbol_group, PyResult.ok.injEq] at hc
    subst hc
    refine ⟨rfl, rfl, rfl, rfl, rfl, ?_⟩
    by_cases hq : sumBy Holding.quantity (base :: rest) = 0
    · simp [hq]
    · simp [hq]
  · intro c hc
    simp only [merrill_combine_symbol_group] at hc
    split at hc
    · simp at hc
    · simp only [PyResult.ok.injEq] at hc
      subst hc
      refine ⟨rfl, rfl, rfl, rfl, rfl, ?_⟩
      by_cases hq : sumBy Holding.quantity (base :: rest) = 0
      · simp [hq]
      · simp [hq]

/-- C2 witness: the cross-broker combiner applied to the singleton group
`[fixtureHolding]`. -/
theorem c2_combine_sums_witness :
    fetch_combine_symbol_group "AAPL" [fixtureHolding] = .ok c2Combined ∧
    (c2Combined.quantity = sumBy Holding.quantity [fixtureHolding] ∧
      c2Combined.cost_basis = sumBy Holding.cost_basis [fixtureHolding] ∧
      c2Combined.current_value = sumBy Holding.current_value [fixtureHolding] ∧
      c2Combined.day_change_dollars = sumBy Holding.day_change_dollars [fixtureHolding] ∧
      c2Combined.unrealized_gain_loss = sumBy Holding.unrealized_gain_loss [fixtureHolding] ∧
      c2Combined.price = (if sumBy Holding.quantity [fixtureHolding] = 0 then 0
        else sumBy Holding.current_value [fixtureHolding] /
          sumBy Holding.quantity [fixtureHolding])) := by
  have hok : fetch_combine_symbol_group "AAPL" [fixtureHolding] = .ok c2Combined := by
    with_unfolding_all rfl
  exact ⟨hok, (c2_combine_sums "Chase" "AAPL" fixtureHolding []).1 c2Combined hok⟩

/-- C6: (code bug) the Merrill combiner guards its day-change division with
`total_current_value != 0` but divides by `total_current_value -
total_day_change_dollars`; on a group summing to current value 5 and day
change 5 it raises ZeroDivisionError instead of yielding the claimed 0 —
the cross-broker variant of the same computation guards the actual divisor
and returns 0 on the identical input. -/
theorem c6_day_change_zero_division :
    merrill_combine_symbol_group "Merrill Lynch" "AAPL" [c6Holding] =
      .exn "ZeroDivisionError" ∧
    fetch_combine_symbol_group "AAPL" [c6Holding] =
      .ok { symbol := "AAPL", description := "Apple Inc", quantity := 1, price := 5,
            unit_cost := 4, cost_basis := 4, current_value := 5,
            day_change_percent := 0, day_change_dollars := 5,
            unrealized_gain_loss := 1, unrealized_gain_loss_percent := 1/4,
            portfolio_percentage := none, brokers := [("Merrill Lynch", 5)] } := by
  exact ⟨by with_unfolding_all rfl, by with_unfolding_all rfl⟩

/-- C7 counterexample: the claim says the consolidated portfolio percentage
is None whenever at least one member lacks one; on the group
`[c7WithPct, c7WithoutPct]` (percentages some 1/2 and none) the Merrill
combiner returns some 1/2, not None. -/
theorem c7_counterexample :
    merrill_combine_symbol_group "Merrill Lynch" "AAPL" [c7WithPct, c7WithoutPct] =
      .ok c7Combined ∧
    c7Combined.portfolio_percentage = some (1/2) ∧
    some ((1 : ℚ)/2) ≠ (none : Option ℚ) := by
  exact ⟨by with_unfolding_all rfl, rfl, by simp⟩

/-- C7 amended: the Merrill intra-broker combiner sets the consolidated
portfolio percentage to the sum over the members that have one whenever at
least one member has one, and to None only when no member has one; the
cross-broker combiner always sets it to None. -/
theorem c7_portfolio_percentage_amended :
    ∀ (b sym : String) (base : Holding) (rest : List Holding),
      (∀ c, merrill_combine_symbol_group b sym (base :: rest) = .ok c →
        c.portfolio_percentage =
          match (base :: rest).filterMap Holding.portfolio_percentage with
          | [] => none
          | _ => some ((base :: rest).filterMap Holding.portfolio_percentage).sum) ∧
      (∀ c, fetch_combine_symbol_group sym (base :: rest) = .ok c →
        c.portfolio_percentage = none) := by
  intro b sym base rest
  constructor
  · intro c hc
    simp only [merrill_combine_symbol_group] at hc
    split at hc
    · simp at hc
    · simp only [PyResult.ok.injEq] at hc
      subst hc
      rfl
  · intro c hc
    simp only [fetch_combine_symbol_group, PyResult.ok.injEq] at hc
    subst hc
    rfl

/-- C7 witness: the Merrill portfolio-percentage rule at the concrete group
`[c7WithPct, c7WithoutPct]`. -/
theorem c7_amended_witness :
    merrill_combine_symbol_group "Merrill Lynch" "AAPL" [c7WithPct, c7WithoutPct] =
      .ok c7Combined ∧
    c7Combined.portfolio_percentage =
      (match ([c7WithPct, c7WithoutPct] : List Holding).filterMap
          Holding.portfolio_percentage with
        | [] => none
        | _ => some (([c7WithPct, c7WithoutPct] : List Holding).filterMap
            Holding.portfolio_percentage).sum) := by
  have hok : merrill_combine_symbol_group "Merrill Lynch" "AAPL" [c7WithPct, c7WithoutPct] =
      .ok c7Combined := by
    with_unfolding_all rfl
  exact ⟨hok,
    (c7_portfolio_percentage_amended "Merrill Lynch" "AAPL" c7WithPct [c7WithoutPct]).1
      c7Combined hok⟩

/-- C8: after the cross-broker percentage assignment over a list with
nonzero total current value, every holding's portfolio percentage is its
current value over the total; on the concrete scenario (17500, 7250, 6250)
the total is 31000, the percentages are the values over 31000, and they
sum to 1. -/
theorem c8_portfolio_percentages :
    (∀ hs : List Holding, sumBy Holding.current_value hs ≠ 0 →
      ∀ h ∈ assign_portfolio_percentages hs,
        h.portfolio_percentage = some (h.current_value / sumBy Holding.current_value hs)) ∧
    sumBy Holding.current_value [aaplHolding, googlHolding, tslaHolding] = 31000 ∧
    (assign_portfolio_percentages [aaplHolding, googlHolding, tslaHolding]).map
      Holding.portfolio_percentage =
      [some (17500/31000), some (7250/31000), some (6250/31000)] ∧
    ((assign_portfolio_percentages [aaplHolding, googlHolding, tslaHolding]).filterMap
      Holding.portfolio_percentage).sum = 1 := by
  refine ⟨?_, by with_unfolding_all rfl, by with_unfolding_all rfl, by with_unfolding_all rfl⟩
  intro hs htot h hmem
  unfold assign_portfolio_percentages at hmem
  rw [if_neg htot] at hmem
  obtain ⟨h0, hmem0, rfl⟩ := List.mem_map.1 hmem
  rfl

/-- C8 witness: the percentage-assignment rule at the first holding of the
concrete three-holding scenario. -/
theorem c8_portfolio_percentages_witness :
    sumBy Holding.current_value [aaplHolding, googlHolding, tslaHolding] ≠ 0 ∧
    ({ aaplHolding with portfolio_percentage := some ((17500 : ℚ)/31000) } :
        Holding).portfolio_percentage =
      some (({ aaplHolding with portfolio_percentage := some ((17500 : ℚ)/31000) } :
          Holding).current_value /
        sumBy Holding.current_value [aaplHolding, googlHolding, tslaHolding]) := by
  have htot : sumBy Holding.current_value [aaplHolding, googlHolding, tslaHolding] ≠ 0 := by
    rw [show sumBy Holding.current_value [aaplHolding, googlHolding, tslaHolding] = 31000 from
      by with_unfolding_all rfl]
    norm_num
  have hlist : assign_portfolio_percentages [aaplHolding, googlHolding, tslaHolding] =
      [{ aaplHolding with portfolio_percentage := some ((17500 : ℚ)/31000) },
       { googlHolding with portfolio_percentage := some ((7250 : ℚ)/31000) },
       { tslaHolding with portfolio_percentage := some ((6250 : ℚ)/31000) }] := by
    with_unfolding_all rfl
  have hmem : ({ aaplHolding with portfolio_percentage := some ((17500 : ℚ)/31000) } :
      Holding) ∈ assign_portfolio_percentages [aaplHolding, googlHolding, tslaHolding] := by
    rw [hlist]
    exact List.mem_cons_self _ _
  exact ⟨htot, c8_portfolio_percentages.1 [aaplHolding, googlHolding, tslaHolding] htot _ hmem⟩

/-- C9: (code bug) `fetch_all_positions` never constructs a Portfolio at
all: for every list of crawler results the pipeline reaches the pydantic
constructor call, which omits the model's required `brokers_updated` field
and therefore raises ValidationError — so no Portfolio with
`brokers_updated` equal to the successful brokers' names is ever
returned. -/
theorem c9_missing_brokers_updated :
    ∀ results : List CrawlerResult,
      fetch_all_positions results = .exn "ValidationError: brokers_updated Field required" := by
  intro results
  obtain ⟨hs, hok⟩ := combine_successful_holdings_ok results
  unfold fetch_all_positions
  rw [hok]
  rfl

end PortfolioAggregator
